import Mathlib

/-!
Verification development for the bus-planner Telegram bot.

The Go sources are shallowly embedded: pure Go functions become Lean
functions, the stateful Telegram handler becomes an explicit
state-passing function, and the externally observable actions of a
handler call (messages sent, prompt keyboards sent, edits of the prompt
message, preference-store writes) are recorded as an explicit event
list.  Go machine integers are modelled as `Int` with Go's truncated
division (`Int.tdiv`) where the Go code divides.

Modelled sources:
  * `internal/journeyplanner/format.go`  (itinerary formatter, and the
    `bot.Handler` message/callback logic of the journey-planner variant
    that is concatenated in the same source file),
  * `internal/journeyplanner/trips.go` / `stop_finder.go`  (data model),
  * the legacy `sl` package (`FuzzyMatch`),
  * `internal/store/userprefs.go`  (preference store, modelled as a
    per-user record inside the handler state; its disk persistence is
    external I/O and is represented by a Boolean success flag).

Go's `time.Parse(time.RFC3339, ...)` and the conversion to the
`Europe/Stockholm` zone are modelled concretely: a proleptic-Gregorian
calendar, RFC 3339 parsing to (seconds, nanoseconds) since the Unix
epoch, and the EU daylight-saving rule (UTC+1, switching to UTC+2
between 01:00 UTC on the last Sunday of March and 01:00 UTC on the last
Sunday of October).
-/

namespace Slbot

/-- Leap year test of the proleptic Gregorian calendar (as used by Go's
`time` package). -/
def isLeap (y : Int) : Bool :=
  (y % 4 == 0 && y % 100 != 0) || y % 400 == 0

/-- Number of days in a month (`m` is 1-based). -/
def daysInMonth (y : Int) (m : Nat) : Nat :=
  if m = 2 then (if isLeap y then 29 else 28)
  else if m = 4 ∨ m = 6 ∨ m = 9 ∨ m = 11 then 30
  else 31

/-- Days from the civil date `y-m-d` to the Unix epoch 1970-01-01
(standard era-based conversion of the proleptic Gregorian calendar). -/
def daysFromCivil (y : Int) (m d : Nat) : Int :=
  let y2 : Int := if m ≤ 2 then y - 1 else y
  let era : Int := Int.fdiv y2 400
  let yoe : Nat := (y2 - era * 400).toNat
  let mp : Nat := (m + 9) % 12
  let doy : Nat := (153 * mp + 2) / 5 + d - 1
  let doe : Nat := yoe * 365 + yoe / 4 - yoe / 100 + doy
  era * 146097 + (doe : Int) - 719468

/-- Inverse of `daysFromCivil`: the civil date of a day count relative
to the Unix epoch. -/
def civilFromDays (z0 : Int) : Int × Nat × Nat :=
  let z : Int := z0 + 719468
  let era : Int := Int.fdiv z 146097
  let doe : Nat := (z - era * 146097).toNat
  let yoe : Nat := (doe - doe / 1460 + doe / 36524 - doe / 146096) / 365
  let y : Int := (yoe : Int) + era * 400
  let doy : Nat := doe - (365 * yoe + yoe / 4 - yoe / 100)
  let mp : Nat := (5 * doy + 2) / 153
  let d : Nat := doy - (153 * mp + 2) / 5 + 1
  let m : Nat := if mp < 10 then mp + 3 else mp - 9
  (if m ≤ 2 then y + 1 else y, m, d)

/-- Day of the month of the last Sunday of month `m` of year `y`
(used for months with 31 days: March and October). -/
def lastSundayDay (y : Int) (m : Nat) : Nat :=
  31 - ((daysFromCivil y m 31 + 4) % 7).toNat

/-- UTC offset (in seconds) of Europe/Stockholm at the instant `secs`
(seconds since the Unix epoch): UTC+2 between 01:00 UTC on the last
Sunday of March and 01:00 UTC on the last Sunday of October, UTC+1
otherwise. -/
def stockholmOffset (secs : Int) : Int :=
  let y := (civilFromDays (Int.fdiv secs 86400)).1
  let dstStart := daysFromCivil y 3 (lastSundayDay y 3) * 86400 + 3600
  let dstEnd := daysFromCivil y 10 (lastSundayDay y 10) * 86400 + 3600
  if dstStart ≤ secs ∧ secs < dstEnd then 7200 else 3600

/-- Zero-pad a number to two digits. -/
def pad2 (n : Nat) : String :=
  if n < 10 then "0" ++ toString n else toString n

/-- Render the instant `secs` (seconds since the Unix epoch) in the
Europe/Stockholm zone in Go's "15:04" layout, i.e. 24-hour `HH:MM`. -/
def formatHHMM (secs : Int) : String :=
  let localSecs := secs + stockholmOffset secs
  let sod := (localSecs % 86400).toNat
  pad2 (sod / 3600) ++ ":" ++ pad2 (sod % 3600 / 60)

/-- Lower-casing, character by character (Go's `strings.ToLower`,
restricted to the ASCII case mapping as in Lean's `Char.toLower`;
defined structurally so that closed terms evaluate). -/
def goToLower (s : String) : String :=
  ⟨s.data.map Char.toLower⟩

/-- Drop leading whitespace characters. -/
def dropLeadingWs : List Char → List Char
  | [] => []
  | c :: rest => if c.isWhitespace then dropLeadingWs rest else c :: rest

/-- Go's `strings.TrimSpace`: remove whitespace from both ends
(defined structurally so that closed terms evaluate). -/
def goTrim (s : String) : String :=
  ⟨(dropLeadingWs (dropLeadingWs s.data.reverse)).reverse⟩

/-- Split a character list at every underscore (Go's
`strings.Split(s, "_")`; defined structurally so that closed terms
evaluate). -/
def splitUnd : List Char → List (List Char)
  | [] => [[]]
  | c :: rest =>
    match splitUnd rest with
    | [] => [[]]
    | g :: gs => if c = '_' then [] :: g :: gs else (c :: g) :: gs

/-- Go's `strings.Split(s, "_")` on strings. -/
def goSplitUnderscore (s : String) : List String :=
  (splitUnd s.data).map (fun l => ⟨l⟩)

/-- An absolute instant as represented by Go's `time.Time`: seconds and
nanoseconds (`0 ≤ nsec < 10^9`) since the Unix epoch. -/
structure GoTime where
  sec : Int
  nsec : Nat
deriving DecidableEq, Repr

/-- The difference `a - b` of two instants, in nanoseconds
(Go: `a.Sub(b)`). -/
def subNanos (a b : GoTime) : Int :=
  (a.sec - b.sec) * 1000000000 + ((a.nsec : Int) - (b.nsec : Int))

/-- Numeric value of a decimal digit character. -/
def digitVal (c : Char) : Option Nat :=
  if c.isDigit then some (c.toNat - 48) else none

/-- Read exactly two decimal digits. -/
def read2 : List Char → Option (Nat × List Char)
  | a :: b :: rest => do
    let x ← digitVal a
    let y ← digitVal b
    pure (x * 10 + y, rest)
  | _ => none

/-- Read exactly four decimal digits. -/
def read4 : List Char → Option (Nat × List Char)
  | a :: b :: c :: d :: rest => do
    let x ← digitVal a
    let y ← digitVal b
    let z ← digitVal c
    let w ← digitVal d
    pure (((x * 10 + y) * 10 + z) * 10 + w, rest)
  | _ => none

/-- Expect a specific literal character. -/
def expectChar (c : Char) : List Char → Option (List Char)
  | d :: rest => if d = c then some rest else none
  | [] => none

/-- Decimal value of a digit list. -/
def digitsVal (ds : List Char) : Nat :=
  ds.foldl (fun a c => a * 10 + (c.toNat - 48)) 0

/-- Read an optional fractional-seconds part (a dot followed by at
least one digit), returning nanoseconds.  As in Go, digits beyond
nanosecond precision are truncated. -/
def readFrac : List Char → Option (Nat × List Char)
  | '.' :: rest =>
    let ds := rest.takeWhile Char.isDigit
    if ds.length = 0 then none
    else
      let ns :=
        if ds.length ≤ 9 then digitsVal ds * 10 ^ (9 - ds.length)
        else digitsVal (ds.take 9)
      some (ns, rest.dropWhile Char.isDigit)
  | rest => some (0, rest)

/-- Read the RFC 3339 zone designator: `Z` or `±HH:MM`; the result is
the zone offset in seconds. -/
def readZone : List Char → Option Int
  | ['Z'] => some 0
  | c :: h1 :: h2 :: ':' :: m1 :: m2 :: [] => do
    let hx ← digitVal h1
    let hy ← digitVal h2
    let mx ← digitVal m1
    let my ← digitVal m2
    let hh := hx * 10 + hy
    let mm := mx * 10 + my
    if hh ≤ 23 ∧ mm ≤ 59 then
      let off : Int := (hh : Int) * 3600 + (mm : Int) * 60
      if c = '+' then some off
      else if c = '-' then some (-off)
      else none
    else none
  | _ => none

/-- Parse an RFC 3339 timestamp (`YYYY-MM-DDTHH:MM:SS[.fff](Z|±HH:MM)`)
to an absolute instant, with the field-range validation Go's
`time.Parse` performs.  Models both `time.Parse(time.RFC3339, ...)` and
the `time.RFC3339Nano` retry in `format.go` (the fractional part is
optional in either). -/
def parseGoRFC3339 (s : String) : Option GoTime := do
  let cs := s.data
  let (y, cs) ← read4 cs
  let cs ← expectChar '-' cs
  let (mo, cs) ← read2 cs
  let cs ← expectChar '-' cs
  let (d, cs) ← read2 cs
  let cs ← expectChar 'T' cs
  let (h, cs) ← read2 cs
  let cs ← expectChar ':' cs
  let (mi, cs) ← read2 cs
  let cs ← expectChar ':' cs
  let (se, cs) ← read2 cs
  let (ns, cs) ← readFrac cs
  let off ← readZone cs
  if 1 ≤ mo ∧ mo ≤ 12 ∧ 1 ≤ d ∧ d ≤ daysInMonth (y : Int) mo ∧
      h ≤ 23 ∧ mi ≤ 59 ∧ se ≤ 59 then
    some ⟨daysFromCivil (y : Int) mo d * 86400 +
            (h : Int) * 3600 + (mi : Int) * 60 + (se : Int) - off, ns⟩
  else none

/-- Embedding of `parseAndConvertToLocal` (format.go): empty input maps
to the empty string, an unparseable timestamp is passed through
unchanged, and a parsed instant is rendered as `HH:MM` in the
Europe/Stockholm zone. -/
def parseAndConvertToLocal (timeStr : String) : String :=
  if timeStr = "" then ""
  else
    match parseGoRFC3339 timeStr with
    | none => timeStr
    | some t => formatHHMM t.sec

/-- Embedding of `parseRFC3339ToLocal` (format.go).  The Go function
returns a `time.Time` in the Stockholm zone together with an `ok` flag;
since the zone attached to a `time.Time` does not change the instant it
denotes (and the caller only subtracts instants), the model returns the
instant. -/
def parseRFC3339ToLocal (timeStr : String) : Option GoTime :=
  if timeStr = "" then none else parseGoRFC3339 timeStr

/-- Embedding of `formatDepartureCompact` (format.go): the departure
line of a transit leg, computed from the planned and estimated
departure timestamp strings. -/
def formatDepartureCompact (planned estimated : String) : String :=
  let plannedTime := parseAndConvertToLocal planned
  let estimatedTime0 := parseAndConvertToLocal estimated
  if plannedTime = "" ∧ estimatedTime0 = "" then ""
  else
    let estimatedTime := if estimatedTime0 = "" then plannedTime else estimatedTime0
    if plannedTime = estimatedTime ∨ plannedTime = "" then
      "  Depart: " ++ estimatedTime ++ " (on time)\n"
    else
      match parseRFC3339ToLocal planned, parseRFC3339ToLocal estimated with
      | some plannedT, some estimatedT =>
        let deltaMin := Int.tdiv (subNanos estimatedT plannedT) 60000000000
        if 0 < deltaMin then
          "  Depart: " ++ plannedTime ++ " → ⚠️ " ++ estimatedTime ++
            " (+" ++ toString deltaMin ++ " min)\n"
        else if deltaMin < 0 then
          "  Depart: " ++ plannedTime ++ " → " ++ estimatedTime ++
            " (" ++ toString deltaMin ++ " min early)\n"
        else
          "  Depart: " ++ plannedTime ++ " → ⚠️ " ++ estimatedTime ++ "\n"
      | _, _ =>
        "  Depart: " ++ plannedTime ++ " → ⚠️ " ++ estimatedTime ++ "\n"

/-- Data model of trips.go: `Product`. -/
structure Product where
  id : Int
  class' : Int
  name : String
deriving DecidableEq, Repr, Inhabited

/-- Data model of trips.go: `Ref` (a transportation destination
label). -/
structure Ref where
  id : String
  name : String
  type : String
deriving DecidableEq, Repr, Inhabited

/-- Data model of trips.go: `Transportation`. -/
structure Transportation where
  name : String
  number : String
  disassembledName : String
  product : Product
  destination : Option Ref
deriving DecidableEq, Repr, Inhabited

/-- Data model of trips.go: `LegPoint` (origin or destination of a
leg; the coordinate list is irrelevant to the formatter and omitted). -/
structure LegPoint where
  id : String
  name : String
  type : String
  departureTimePlanned : String
  departureTimeEstimated : String
  arrivalTimePlanned : String
  arrivalTimeEstimated : String
deriving DecidableEq, Repr, Inhabited

/-- Data model of trips.go: `Leg`. -/
structure Leg where
  duration : Int
  origin : LegPoint
  destination : LegPoint
  transportation : Option Transportation
  type : String
deriving DecidableEq, Repr, Inhabited

/-- Data model of trips.go: `Journey`. -/
structure Journey where
  tripID : String
  tripDuration : Int
  tripRtDuration : Int
  interchanges : Int
  legs : List Leg
deriving DecidableEq, Repr, Inhabited

/-- Embedding of `formatName` (format.go): a missing name renders as
the literal `(unknown)` placeholder. -/
def formatName (name : String) : String :=
  if name = "" then "(unknown)" else name

/-- Whole-minute duration as rendered by `FormatJourneys` and
`formatLeg` (format.go): `(seconds + 59) / 60` in Go's truncated
integer division. -/
def durationMin (seconds : Int) : Int :=
  Int.tdiv (seconds + 59) 60

/-- Go's `unicode`-based separator test as used by `strings.Title`
(restricted to the ASCII product names that occur here): letters,
digits and underscore do not separate words. -/
def isSepGo (c : Char) : Bool :=
  !(c.isAlphanum || c = '_')

/-- Character walk of `strings.Title`: upper-case a character that
follows a word separator. -/
def titleChars (prevSep : Bool) : List Char → List Char
  | [] => []
  | c :: rest => (if prevSep then c.toUpper else c) :: titleChars (isSepGo c) rest

/-- Embedding of `strings.Title` (legacy Go function used for the
fallback transport-mode name). -/
def goTitle (s : String) : String :=
  ⟨titleChars true s.data⟩

/-- Line number of a leg's transportation (empty when the leg has no
transportation descriptor). -/
def transportLine (leg : Leg) : String :=
  match leg.transportation with
  | none => ""
  | some t => t.number

/-- Human destination label of a leg's transportation line (empty when
absent). -/
def transportDirection (leg : Leg) : String :=
  match leg.transportation with
  | none => ""
  | some t =>
    match t.destination with
    | none => ""
    | some d => d.name

/-- The common rendering of the bus / metro / tram branches of
`formatLeg`: an icon line with line number and optional direction, the
departure line, and the origin → destination line. -/
def modeLines (icon : String) (leg : Leg) : String :=
  let line := transportLine leg
  let direction := transportDirection leg
  (if direction ≠ "" then icon ++ " " ++ line ++ " → " ++ direction ++ "\n"
   else icon ++ " " ++ line ++ "\n") ++
  formatDepartureCompact leg.origin.departureTimePlanned leg.origin.departureTimeEstimated ++
  "  " ++ formatName leg.origin.name ++ " → " ++ formatName leg.destination.name ++ "\n"

/-- Embedding of `formatLeg` (format.go): dispatch on the lower-cased,
trimmed product name. -/
def formatLeg (leg : Leg) : String :=
  let productName :=
    match leg.transportation with
    | none => ""
    | some t => goToLower (goTrim t.product.name)
  if productName = "footpath" ∨ productName = "" then
    "🚶 Walk " ++ toString (durationMin leg.duration) ++ " min\n" ++
    "  " ++ formatName leg.origin.name ++ " → " ++ formatName leg.destination.name ++ "\n"
  else if productName = "bus" then modeLines "🚌" leg
  else if productName = "metro" then modeLines "🚇" leg
  else if productName = "tram" then modeLines "🚊" leg
  else
    let methodName0 := goTitle productName
    let methodName := if methodName0 = "" then "Transit" else methodName0
    let line := transportLine leg
    let direction := transportDirection leg
    (if direction ≠ "" ∧ line ≠ "" then
      "🚆 " ++ methodName ++ " " ++ line ++ " → " ++ direction ++ "\n"
     else if line ≠ "" then "🚆 " ++ methodName ++ " " ++ line ++ "\n"
     else "🚆 " ++ methodName ++ "\n") ++
    formatDepartureCompact leg.origin.departureTimePlanned leg.origin.departureTimeEstimated ++
    "  " ++ formatName leg.origin.name ++ " → " ++ formatName leg.destination.name ++ "\n"

/-- Scan of `getJourneyArrivalTime` (format.go) over the legs in
reverse order: first non-empty estimated arrival, else first non-empty
planned arrival. -/
def arrivalFromLegs : List Leg → String
  | [] => ""
  | leg :: rest =>
    if leg.destination.arrivalTimeEstimated ≠ "" then
      parseAndConvertToLocal leg.destination.arrivalTimeEstimated
    else if leg.destination.arrivalTimePlanned ≠ "" then
      parseAndConvertToLocal leg.destination.arrivalTimePlanned
    else arrivalFromLegs rest

/-- Embedding of `getJourneyArrivalTime` (format.go). -/
def getJourneyArrivalTime (j : Journey) : String :=
  arrivalFromLegs j.legs.reverse

/-- One rendered journey option of `FormatJourneys` (format.go):
separator line, header with 1-based index / rounded-up minutes /
optional arrival time, then the rendered legs. -/
def renderJourney (i : Nat) (j : Journey) : String :=
  let duration := if j.tripRtDuration = 0 then j.tripDuration else j.tripRtDuration
  let arrivalTime := getJourneyArrivalTime j
  "━━━━━━━━━━━━━━━━━━━━━━\n" ++
  (if arrivalTime ≠ "" then
    "Option " ++ toString (i + 1) ++ " (" ++ toString (durationMin duration) ++
      " min, arrives " ++ arrivalTime ++ ")\n\n"
   else
    "Option " ++ toString (i + 1) ++ " (" ++ toString (durationMin duration) ++ " min)\n\n") ++
  String.join (j.legs.map (fun leg => formatLeg leg ++ "\n")) ++
  "\n"

/-- Embedding of `FormatJourneys` (format.go).  The `originLabel` and
`destinationLabel` parameters of the Go function are accepted and, as
in the Go code, never used. -/
def FormatJourneys (originLabel destinationLabel : String) (journeys : List Journey)
    (count : Int) : String :=
  let count1 := if count ≤ 0 then 3 else count
  let count2 := if (journeys.length : Int) < count1 then (journeys.length : Int) else count1
  if count2 = 0 then "No journeys found."
  else
    goTrim (String.join ((List.range count2.toNat).map
      (fun i => renderJourney i (journeys.getD i default))))

/-- Data model of the legacy `sl` package: `Site`. -/
structure Site where
  name : String
  siteID : Int
  type : String
deriving DecidableEq, Repr, Inhabited

/-- Substring containment on character lists (Go's
`strings.Contains`). -/
def listContains (sub : List Char) : List Char → Bool
  | [] => sub.isEmpty
  | c :: rest => sub.isPrefixOf (c :: rest) || listContains sub rest

/-- Embedding of Go's `strings.Contains s sub`. -/
def goContains (s sub : String) : Bool :=
  listContains sub.data s.data

/-- Loop of `FuzzyMatch` (legacy `sl` package): append each matching
site and break once `count ≤ len(matches)` — the cutoff is checked only
after a match has been appended. -/
def fuzzyGo (q : String) (count : Int) (acc : List Site) : List Site → List Site
  | [] => acc
  | s :: rest =>
    if goContains (goToLower s.name) q then
      let acc2 := acc ++ [s]
      if count ≤ (acc2.length : Int) then acc2 else fuzzyGo q count acc2 rest
    else fuzzyGo q count acc rest

/-- Embedding of `FuzzyMatch` (legacy `sl` package): case-insensitive
substring matching of the query against site names, in source order.
Lower-casing is modelled by Lean's `String.toLower` on both sides of
every comparison. -/
def FuzzyMatch (query : String) (sites : List Site) (count : Int) : List Site :=
  fuzzyGo (goToLower query) count [] sites

/-- Data model of stop_finder.go: `Location` (fields not used by the
handler logic — coordinates, match quality — are omitted). -/
structure Location where
  id : String
  name : String
  type : String
deriving DecidableEq, Repr, Inhabited

/-- Data model of userprefs.go: `UserPreferences`. -/
structure UserPreferences where
  homeLocation : String
  workLocation : String
  routePriority : String
deriving DecidableEq, Repr, Inhabited

/-- Which of the two saved locations a pending selection applies to. -/
inductive Role where
  | home
  | work
deriving DecidableEq, Repr

/-- Association-list lookup with Go map semantics: reading an absent
key of a `map[int64][]Location` yields the zero value `nil`. -/
def mapGet (m : List (Int × List Location)) (k : Int) : List Location :=
  match m.find? (fun p => p.1 = k) with
  | none => []
  | some p => p.2

/-- Whether the map holds an entry for the key at all (Go: comma-ok /
presence of the key). -/
def mapHas (m : List (Int × List Location)) (k : Int) : Bool :=
  (m.find? (fun p => p.1 = k)).isSome

/-- Go `m[k] = v`: replace the entry or append a fresh one. -/
def mapPut (m : List (Int × List Location)) (k : Int) (v : List Location) :
    List (Int × List Location) :=
  match m with
  | [] => [(k, v)]
  | p :: rest => if p.1 = k then (k, v) :: rest else p :: mapPut rest k v

/-- Go `delete(m, k)`. -/
def mapDel (m : List (Int × List Location)) (k : Int) : List (Int × List Location) :=
  m.filter (fun p => p.1 ≠ k)

/-- State of the `bot.Handler` of the journey-planner variant plus the
in-memory contents of the preference store it talks to: the two pending
selection maps and the per-user preferences. -/
structure BotState where
  pendingHome : List (Int × List Location)
  pendingWork : List (Int × List Location)
  prefs : List (Int × UserPreferences)
deriving DecidableEq, Repr, Inhabited

/-- Read a user's preferences (Go `UserStore.GetPrefs`: the zero value
when the user has no entry). -/
def getPrefs (st : BotState) (user : Int) : UserPreferences :=
  match st.prefs.find? (fun p => p.1 = user) with
  | none => ⟨"", "", ""⟩
  | some p => p.2

/-- Update one user's preference record, creating it if absent (the
shared shape of `SetHome` / `SetWork` / `SetPriority`). -/
def putPrefs (st : BotState) (user : Int) (f : UserPreferences → UserPreferences) :
    BotState :=
  let old := getPrefs st user
  let rec go : List (Int × UserPreferences) → List (Int × UserPreferences)
    | [] => [(user, f old)]
    | p :: rest => if p.1 = user then (user, f old) :: rest else p :: go rest
  { st with prefs := go st.prefs }

/-- Successful `UserStore.SetHome`. -/
def setHomePref (st : BotState) (user : Int) (ref : String) : BotState :=
  putPrefs st user (fun p => { p with homeLocation := ref })

/-- Successful `UserStore.SetWork`. -/
def setWorkPref (st : BotState) (user : Int) (ref : String) : BotState :=
  putPrefs st user (fun p => { p with workLocation := ref })

/-- Successful `UserStore.SetPriority`. -/
def setPriorityPref (st : BotState) (user : Int) (v : String) : BotState :=
  putPrefs st user (fun p => { p with routePriority := v })

/-- Externally observable actions of one handler call, in order: a
plain chat message, an interactive prompt (text plus a list of
(label, addressing-token) buttons), an edit-in-place of the prompt
message, and an attempted preference-store write (which succeeds iff
the store-success flag passed to the handler is true). -/
inductive Event where
  | msg (text : String)
  | prompt (text : String) (buttons : List (String × String))
  | edit (text : String)
  | writeHome (user : Int) (ref : String)
  | writeWork (user : Int) (ref : String)
  | writePriority (user : Int) (value : String)
deriving DecidableEq, Repr

/-- Whether an event is an interactive selection prompt. -/
def Event.isPrompt : Event → Bool
  | .prompt _ _ => true
  | _ => false

/-- Whether an event is an attempted preference-store write. -/
def Event.isWrite : Event → Bool
  | .writeHome _ _ => true
  | .writeWork _ _ => true
  | .writePriority _ _ => true
  | _ => false

/-- Embedding of Go's `strconv.ParseInt(s, 10, 64)` (and `Atoi` on a
64-bit platform): optional sign, at least one decimal digit, nothing
else, result within the signed 64-bit range. -/
def parseGoInt (s : String) : Option Int :=
  match s.data with
  | [] => none
  | c :: rest =>
    let (neg, ds) :=
      if c = '-' then (true, rest)
      else if c = '+' then (false, rest)
      else (false, c :: rest)
    if ds.isEmpty then none
    else if ds.all Char.isDigit then
      let v0 : Int := (digitsVal ds : Int)
      let v : Int := if neg then -v0 else v0
      if -(2 ^ 63) ≤ v ∧ v ≤ 2 ^ 63 - 1 then some v else none
    else none

/-- The user-visible label of a route-priority value
(`HandleCallback`, priority branch). -/
def priorityLabel (v : String) : String :=
  if v = "leasttime" then "Fastest"
  else if v = "leastinterchange" then "Least transfers"
  else if v = "leastwalking" then "Least walking"
  else ""

/-- Embedding of `Handler.HandleCallback` of the journey-planner bot
(the `bot` package concatenated in format.go): decode the
`action_user_index` addressing token, dispatch on the action, and for
a location selection validate the index against the pending list that
is read (not removed) from the pending map, attempt the
preference-store write, and only after a successful write delete the
pending entry and edit the prompt message.  `storeOk` tells whether
the preference store's persistence succeeds. -/
def HandleCallback (storeOk : Bool) (st : BotState) (data : String) :
    BotState × List Event :=
  let parts := goSplitUnderscore data
  if parts.length ≠ 3 then (st, [])
  else
    let action := parts.getD 0 ""
    match parseGoInt (parts.getD 1 "") with
    | none => (st, [])
    | some userID =>
      if action = "priority" then
        let priorityValue := parts.getD 2 ""
        if storeOk then
          (setPriorityPref st userID priorityValue,
            [.writePriority userID priorityValue,
             .edit ("✅ Route priority set to: " ++ priorityLabel priorityValue)])
        else
          (st, [.writePriority userID priorityValue, .msg "❌ Error saving preference."])
      else
        match parseGoInt (parts.getD 2 "") with
        | none => (st, [])
        | some selectionIndex =>
          if action = "homejp" then
            let matchList := mapGet st.pendingHome userID
            if selectionIndex < 0 ∨ (matchList.length : Int) ≤ selectionIndex then
              (st, [.msg "❌ Location not found in pending selections."])
            else
              let selected := matchList.getD selectionIndex.toNat default
              if storeOk then
                let st1 := setHomePref st userID selected.id
                let st2 := { st1 with pendingHome := mapDel st1.pendingHome userID }
                (st2, [.writeHome userID selected.id,
                       .edit ("✅ Home set to: " ++ selected.name)])
              else
                (st, [.writeHome userID selected.id, .msg "❌ Error saving preference."])
          else if action = "workjp" then
            let matchList := mapGet st.pendingWork userID
            if selectionIndex < 0 ∨ (matchList.length : Int) ≤ selectionIndex then
              (st, [.msg "❌ Location not found in pending selections."])
            else
              let selected := matchList.getD selectionIndex.toNat default
              if storeOk then
                let st1 := setWorkPref st userID selected.id
                let st2 := { st1 with pendingWork := mapDel st1.pendingWork userID }
                (st2, [.writeWork userID selected.id,
                       .edit ("✅ Work set to: " ++ selected.name)])
              else
                (st, [.writeWork userID selected.id, .msg "❌ Error saving preference."])
          else (st, [])

/-- Embedding of `Handler.handleSetHome` of the journey-planner bot.
The stop-finder collaborator's answer is passed in as `finder`
(`Except` models the Go error return).  `storeOk` tells whether the
preference store's persistence succeeds. -/
def handleSetHome (storeOk : Bool) (st : BotState) (userID : Int) (query : String)
    (finder : Except Unit (List Location)) : BotState × List Event :=
  if query = "" then
    (st, [.msg "❓ Usage: /sethome <location>\n\nExamples:\n• /sethome Odenplan\n• /sethome Drottninggatan 1, Stockholm"])
  else
    match finder with
    | .error _ => (st, [.msg "❌ Error searching locations. Try again later."])
    | .ok locs =>
      if locs.length = 0 then
        (st, [.msg ("❌ No locations found matching '" ++ query ++ "'")])
      else if locs.length = 1 then
        let selected := locs.getD 0 default
        if storeOk then
          (setHomePref st userID selected.id,
            [.writeHome userID selected.id, .msg ("✅ Home set to: " ++ selected.name)])
        else
          (st, [.writeHome userID selected.id,
                .msg "❌ Error saving preference. Try again later."])
      else
        let st2 := { st with pendingHome := mapPut st.pendingHome userID locs }
        let buttons := locs.enum.map (fun p =>
          (p.2.name ++ " (" ++ p.2.type ++ ")",
           "homejp_" ++ toString userID ++ "_" ++ toString p.1))
        (st2, [.prompt ("Multiple matches for '" ++ query ++ "'. Which one?") buttons])

/-- Embedding of `Handler.handleSetWork` of the journey-planner bot
(symmetric to `handleSetHome`). -/
def handleSetWork (storeOk : Bool) (st : BotState) (userID : Int) (query : String)
    (finder : Except Unit (List Location)) : BotState × List Event :=
  if query = "" then
    (st, [.msg "❓ Usage: /setwork <location>\n\nExamples:\n• /setwork Slussen\n• /setwork Kungsgatan 10, Stockholm"])
  else
    match finder with
    | .error _ => (st, [.msg "❌ Error searching locations. Try again later."])
    | .ok locs =>
      if locs.length = 0 then
        (st, [.msg ("❌ No locations found matching '" ++ query ++ "'")])
      else if locs.length = 1 then
        let selected := locs.getD 0 default
        if storeOk then
          (setWorkPref st userID selected.id,
            [.writeWork userID selected.id, .msg ("✅ Work set to: " ++ selected.name)])
        else
          (st, [.writeWork userID selected.id,
                .msg "❌ Error saving preference. Try again later."])
      else
        let st2 := { st with pendingWork := mapPut st.pendingWork userID locs }
        let buttons := locs.enum.map (fun p =>
          (p.2.name ++ " (" ++ p.2.type ++ ")",
           "workjp_" ++ toString userID ++ "_" ++ toString p.1))
        (st2, [.prompt ("Multiple matches for '" ++ query ++ "'. Which one?") buttons])

/-- The pending map of a role. -/
def pendingOf (st : BotState) : Role → List (Int × List Location)
  | .home => st.pendingHome
  | .work => st.pendingWork

/-- The addressing-token action string of a role. -/
def roleAction : Role → String
  | .home => "homejp"
  | .work => "workjp"

/-! ### Definitions following the specification's words

These are stated from the spec, to be compared with the embeddings
above; each is named and used by exactly the claim it belongs to. -/

/-- Stated from the spec (§4.4): render exactly `n` journey options,
with the sentinel text for `n = 0`. -/
def renderOptions (journeys : List Journey) (n : Nat) : String :=
  if n = 0 then "No journeys found."
  else
    goTrim (String.join ((List.range n).map
      (fun i => renderJourney i (journeys.getD i default))))

/-- Stated from the spec (§4.1): the substring matcher keeps the
candidates whose lower-cased name contains the lower-cased query,
preserves source order, and caps at the requested count. -/
def substrMatches (query : String) (sites : List Site) (count : Int) : List Site :=
  (sites.filter (fun s => goContains (goToLower s.name) (goToLower query))).take count.toNat

/-- The preference-store write event of a role. -/
def roleWrite : Role → Int → String → Event
  | .home => .writeHome
  | .work => .writeWork

/-- The confirmation text a successful selection edits into the prompt
message. -/
def roleConfirm : Role → String → String
  | .home => fun name => "✅ Home set to: " ++ name
  | .work => fun name => "✅ Work set to: " ++ name

/-- The state after a successful click resolution: the preference of
the role is set and the pending entry of the (user, role) pair is
deleted. -/
def applySelection (st : BotState) (role : Role) (user : Int) (ref : String) : BotState :=
  match role with
  | .home =>
    let st1 := setHomePref st user ref
    { st1 with pendingHome := mapDel st1.pendingHome user }
  | .work =>
    let st1 := setWorkPref st user ref
    { st1 with pendingWork := mapDel st1.pendingWork user }

/-- Stated from the spec (§4.4, delay rule), amended by the
counterexample: both timestamps absent renders nothing; exactly one
present renders it as on time; both present with identical
minute-precision renderings renders on time; otherwise, with both
timestamps numerically parseable, a positive truncated whole-minute
difference renders the late form, a negative one the early form, and
the suffix-free fallback is used when the truncated difference is zero
or when a timestamp cannot be parsed numerically. -/
def depLineSpec (planned estimated : String) : String :=
  if planned = "" ∧ estimated = "" then ""
  else if planned = "" then
    "  Depart: " ++ parseAndConvertToLocal estimated ++ " (on time)\n"
  else if estimated = "" then
    "  Depart: " ++ parseAndConvertToLocal planned ++ " (on time)\n"
  else if parseAndConvertToLocal planned = parseAndConvertToLocal estimated then
    "  Depart: " ++ parseAndConvertToLocal estimated ++ " (on time)\n"
  else
    match parseRFC3339ToLocal planned, parseRFC3339ToLocal estimated with
    | some plannedT, some estimatedT =>
      let deltaMin := Int.tdiv (subNanos estimatedT plannedT) 60000000000
      if 0 < deltaMin then
        "  Depart: " ++ parseAndConvertToLocal planned ++ " → ⚠️ " ++
          parseAndConvertToLocal estimated ++ " (+" ++ toString deltaMin ++ " min)\n"
      else if deltaMin < 0 then
        "  Depart: " ++ parseAndConvertToLocal planned ++ " → " ++
          parseAndConvertToLocal estimated ++ " (" ++ toString deltaMin ++ " min early)\n"
      else
        "  Depart: " ++ parseAndConvertToLocal planned ++ " → ⚠️ " ++
          parseAndConvertToLocal estimated ++ "\n"
    | _, _ =>
      "  Depart: " ++ parseAndConvertToLocal planned ++ " → ⚠️ " ++
        parseAndConvertToLocal estimated ++ "\n"

/-- Concrete candidate used by the example states. -/
def exLocA : Location := ⟨"id0", "Odenplan", "stop"⟩

/-- Concrete candidate used by the example states. -/
def exLocB : Location := ⟨"id1", "Odenplan Norra", "stop"⟩

/-- Example state: user 1 has a pending home selection of two
candidates. -/
def exSt : BotState := ⟨[(1, [exLocA, exLocB])], [], []⟩

/-! ### Claim theorems -/

/-- The rendered form of a non-empty timestamp string is non-empty:
an unparseable string passes through unchanged and a parsed one
renders as `HH:MM`. -/
theorem parseAndConvertToLocal_eq_empty (s : String) :
    parseAndConvertToLocal s = "" ↔ s = "" := by
  constructor
  · intro h
    by_contra hs
    simp only [parseAndConvertToLocal, if_neg hs] at h
    cases hparse : parseGoRFC3339 s with
    | none => rw [hparse] at h; exact hs h
    | some t =>
      rw [hparse] at h
      have h2 : formatHHMM t.sec = "" := h
      have hlen : (formatHHMM t.sec).length = 0 := by rw [h2]; rfl
      have hone : (":" : String).length = 1 := rfl
      rw [formatHHMM] at hlen
      simp only [String.length_append] at hlen
      omega
  · intro h
    subst h
    rfl

/-- Deleting a key removes its entry. -/
theorem mapHas_mapDel (m : List (Int × List Location)) (k : Int) :
    mapHas (mapDel m k) k = false := by
  induction m with
  | nil => rfl
  | cons p rest ih =>
    by_cases hp : p.1 = k
    · have h1 : mapDel (p :: rest) k = mapDel rest k := by
        simp [mapDel, List.filter_cons, hp]
      rw [h1, ih]
    · have h1 : mapDel (p :: rest) k = p :: mapDel rest k := by
        simp [mapDel, List.filter_cons, hp]
      rw [h1]
      show (List.find? (fun q => decide (q.1 = k)) (p :: mapDel rest k)).isSome = false
      rw [List.find?_cons]
      have h2 : decide (p.1 = k) = false := by simp [hp]
      rw [h2]
      exact ih

/-- Full characterization of a location-selection callback of
`HandleCallback`: the pending list of the decoded (user, role) is read,
the index is validated against it, and the three outcomes are the
invalid-selection message, the failed-write message with the state
unchanged, or the write together with the deletion of the pending entry
and the confirmation edit. -/
theorem HandleCallback_location (storeOk : Bool) (st : BotState) (role : Role)
    (data us is : String) (user idx : Int)
    (hsplit : goSplitUnderscore data = [roleAction role, us, is])
    (hu : parseGoInt us = some user)
    (hi : parseGoInt is = some idx) :
    HandleCallback storeOk st data =
      if idx < 0 ∨ ((mapGet (pendingOf st role) user).length : Int) ≤ idx then
        (st, [.msg "❌ Location not found in pending selections."])
      else
        let selected := (mapGet (pendingOf st role) user).getD idx.toNat default
        if storeOk then
          (applySelection st role user selected.id,
           [roleWrite role user selected.id, .edit (roleConfirm role selected.name)])
        else
          (st, [roleWrite role user selected.id, .msg "❌ Error saving preference."]) := by
  cases role with
  | home =>
    simp only [roleAction] at hsplit
    simp [HandleCallback, hsplit, hu, hi, pendingOf, roleWrite, roleConfirm, applySelection]
  | work =>
    simp only [roleAction] at hsplit
    simp [HandleCallback, hsplit, hu, hi, pendingOf, roleWrite, roleConfirm, applySelection]

/-- C1 counterexample: user 1 has a pending home list; the click
`homejp_1_0` is resolved while the preference-store write fails, and
afterwards the Pending Selection Store still holds that (user, role)
entry — the claim says it would already have been removed. -/
theorem pending_cleared_on_failure_counterexample :
    mapHas (HandleCallback false exSt "homejp_1_0").1.pendingHome 1 = true ∧
    mapGet (HandleCallback false exSt "homejp_1_0").1.pendingHome 1 = [exLocA, exLocB] := by
  decide

/-- C1 (amended): there is no take-and-clear step.  If the
preference-store write fails while resolving a click on a pending
location prompt, the pending entry for that (user, role) has not been
removed at all — the deletion happens only after a successful write —
so after the failed persistence the handler state is completely
unchanged and still holds the same pending list; the user may simply
click again. -/
theorem pending_kept_on_persistence_failure
    (st : BotState) (role : Role) (data us is : String) (user idx : Int)
    (hsplit : goSplitUnderscore data = [roleAction role, us, is])
    (hu : parseGoInt us = some user) (hi : parseGoInt is = some idx)
    (h0 : 0 ≤ idx) (hlt : idx < ((mapGet (pendingOf st role) user).length : Int)) :
    HandleCallback false st data =
      (st, [roleWrite role user ((mapGet (pendingOf st role) user).getD idx.toNat default).id,
            .msg "❌ Error saving preference."]) := by
  rw [HandleCallback_location false st role data us is user idx hsplit hu hi]
  rw [if_neg (by omega)]
  simp

/-- C1 witness: the amended statement at the concrete failing click. -/
theorem pending_kept_on_persistence_failure_witness :
    HandleCallback false exSt "homejp_1_0" =
      (exSt, [.writeHome 1 "id0", .msg "❌ Error saving preference."]) :=
  pending_kept_on_persistence_failure exSt .home "homejp_1_0" "1" "0" 1 0
    (by decide) (by decide) (by decide) (by decide) (by decide)

/-- C2 counterexample: after an out-of-bounds click (`homejp_1_5`
against a two-element pending list) the store still holds the entry
for that (user, role) — the claim says take-and-clear would already
have removed it before the bounds check. -/
theorem pending_taken_before_validation_counterexample :
    mapHas (HandleCallback true exSt "homejp_1_5").1.pendingHome 1 = true ∧
    mapGet (HandleCallback true exSt "homejp_1_5").1.pendingHome 1 = [exLocA, exLocB] := by
  decide

/-- C2 (amended): for every click event whose addressing token decodes
to a (role, user, position) triple, the pending list for that
(user, role) is read without being removed before the position is
validated; the entry is removed only after a successful preference
write.  In particular an out-of-bounds click leaves the whole state
(and hence the entry) unchanged, a valid click with a failing write
also leaves the state unchanged, and a valid click with a successful
write removes the entry. -/
theorem pending_removed_only_after_write
    (st : BotState) (role : Role) (data us is : String) (user idx : Int) (storeOk : Bool)
    (hsplit : goSplitUnderscore data = [roleAction role, us, is])
    (hu : parseGoInt us = some user) (hi : parseGoInt is = some idx) :
    ((idx < 0 ∨ ((mapGet (pendingOf st role) user).length : Int) ≤ idx) →
      HandleCallback storeOk st data =
        (st, [.msg "❌ Location not found in pending selections."])) ∧
    (0 ≤ idx → idx < ((mapGet (pendingOf st role) user).length : Int) →
      storeOk = false → (HandleCallback storeOk st data).1 = st) ∧
    (0 ≤ idx → idx < ((mapGet (pendingOf st role) user).length : Int) →
      storeOk = true →
      mapHas (pendingOf (HandleCallback storeOk st data).1 role) user = false) := by
  rw [HandleCallback_location storeOk st role data us is user idx hsplit hu hi]
  refine ⟨fun hoob => ?_, fun hl hr hfail => ?_, fun hl hr hok => ?_⟩
  · rw [if_pos hoob]
  · rw [if_neg (by omega)]
    subst hfail
    simp
  · rw [if_neg (by omega)]
    subst hok
    cases role with
    | home => simp [applySelection, pendingOf, setHomePref, putPrefs, mapHas_mapDel]
    | work => simp [applySelection, pendingOf, setWorkPref, putPrefs, mapHas_mapDel]

/-- C2 witness: the amended statement applied at a concrete
out-of-bounds click. -/
theorem pending_removed_only_after_write_witness :
    HandleCallback true exSt "homejp_1_5" =
      (exSt, [.msg "❌ Location not found in pending selections."]) :=
  (pending_removed_only_after_write exSt .home "homejp_1_5" "1" "5" 1 5 true
    (by decide) (by decide) (by decide)).1 (by decide)

/-- C3 counterexample: the malformed addressing token `homejp` (too
few fields) produces no event at all — in particular no user-visible
"selection no longer available" message, contrary to the claim that
every Invalid case reports one. -/
theorem malformed_token_message_counterexample :
    HandleCallback true exSt "homejp" = (exSt, []) := by
  decide

/-- C3 (amended): an out-of-range position or an absent pending entry
makes the handler send the user-visible "❌ Location not found in
pending selections." message and perform no preference-store write; a
malformed addressing token (wrong field count, or a non-numeric user
or position field) is only logged — the handler sends no message at
all.  In no Invalid case does a preference-store write occur. -/
theorem invalid_click_handling :
    (∀ (st : BotState) (storeOk : Bool) (role : Role) (data us is : String) (user idx : Int),
      goSplitUnderscore data = [roleAction role, us, is] →
      parseGoInt us = some user → parseGoInt is = some idx →
      (idx < 0 ∨ ((mapGet (pendingOf st role) user).length : Int) ≤ idx) →
      HandleCallback storeOk st data =
        (st, [.msg "❌ Location not found in pending selections."])) ∧
    (∀ (st : BotState) (storeOk : Bool) (data : String),
      (goSplitUnderscore data).length ≠ 3 →
      HandleCallback storeOk st data = (st, [])) ∧
    (∀ (st : BotState) (storeOk : Bool) (data a us is : String),
      goSplitUnderscore data = [a, us, is] → parseGoInt us = none →
      HandleCallback storeOk st data = (st, [])) ∧
    (∀ (st : BotState) (storeOk : Bool) (data a us is : String) (user : Int),
      goSplitUnderscore data = [a, us, is] → a ≠ "priority" →
      parseGoInt us = some user → parseGoInt is = none →
      HandleCallback storeOk st data = (st, [])) := by
  refine ⟨?_, ?_, ?_, ?_⟩
  · intro st storeOk role data us is user idx hsplit hu hi hoob
    rw [HandleCallback_location storeOk st role data us is user idx hsplit hu hi]
    rw [if_pos hoob]
  · intro st storeOk data hlen
    simp [HandleCallback, hlen]
  · intro st storeOk data a us is hsplit hu
    simp [HandleCallback, hsplit, hu]
  · intro st storeOk data a us is user hsplit ha hu hi
    simp [HandleCallback, hsplit, hu, hi, ha]

/-- C3 witness: a malformed token is silently dropped. -/
theorem invalid_click_handling_witness :
    HandleCallback true exSt "homejp_x_0" = (exSt, []) :=
  invalid_click_handling.2.2.1 exSt true "homejp_x_0" "homejp" "x" "0"
    (by decide) (by decide)

/-- C4: for a click token carrying position `p` into the pending list
of length `N` for the decoded (user, role): if `0 ≤ p < N` and the
preference store accepts the write, the candidate at index `p` is
persisted (home or work preference by role) and the prompt message is
edited to the confirmation naming exactly that candidate; if `p < 0`
or `p ≥ N`, the handler answers with the invalid-selection message and
no preference-store write occurs. -/
theorem click_resolution_success
    (st : BotState) (role : Role) (data us is : String) (user idx : Int) (storeOk : Bool)
    (hsplit : goSplitUnderscore data = [roleAction role, us, is])
    (hu : parseGoInt us = some user) (hi : parseGoInt is = some idx) :
    (0 ≤ idx → idx < ((mapGet (pendingOf st role) user).length : Int) → storeOk = true →
      HandleCallback storeOk st data =
        (applySelection st role user
            ((mapGet (pendingOf st role) user).getD idx.toNat default).id,
         [roleWrite role user ((mapGet (pendingOf st role) user).getD idx.toNat default).id,
          .edit (roleConfirm role
            ((mapGet (pendingOf st role) user).getD idx.toNat default).name)])) ∧
    ((idx < 0 ∨ ((mapGet (pendingOf st role) user).length : Int) ≤ idx) →
      HandleCallback storeOk st data =
        (st, [.msg "❌ Location not found in pending selections."]) ∧
      ∀ e ∈ (HandleCallback storeOk st data).2, e.isWrite = false) := by
  rw [HandleCallback_location storeOk st role data us is user idx hsplit hu hi]
  constructor
  · intro hl hr hok
    rw [if_neg (by omega)]
    subst hok
    simp
  · intro hoob
    rw [if_pos hoob]
    refine ⟨rfl, ?_⟩
    intro e he
    simp only [List.mem_singleton] at he
    subst he
    rfl

/-- C4 witness: clicking index 1 of the two-candidate pending list
persists "Odenplan Norra" and edits the prompt accordingly. -/
theorem click_resolution_success_witness :
    HandleCallback true exSt "homejp_1_1" =
      (⟨[], [], [(1, ⟨"id1", "", ""⟩)]⟩,
       [.writeHome 1 "id1", .edit "✅ Home set to: Odenplan Norra"]) :=
  (click_resolution_success exSt .home "homejp_1_1" "1" "1" 1 1 true
    (by decide) (by decide) (by decide)).1 (by decide) (by decide) rfl

/-- C5: when the stop finder yields exactly one candidate, the
set-home / set-work paths persist it immediately and report success
(when the preference store accepts the write), never emit a selection
prompt, and leave both pending maps untouched. -/
theorem single_candidate_resolution :
    (∀ (st : BotState) (storeOk : Bool) (user : Int) (query : String) (loc : Location),
      query ≠ "" →
      (handleSetHome storeOk st user query (.ok [loc])).1.pendingHome = st.pendingHome ∧
      (handleSetHome storeOk st user query (.ok [loc])).1.pendingWork = st.pendingWork ∧
      (∀ e ∈ (handleSetHome storeOk st user query (.ok [loc])).2, e.isPrompt = false) ∧
      (storeOk = true →
        handleSetHome storeOk st user query (.ok [loc]) =
          (setHomePref st user loc.id,
           [.writeHome user loc.id, .msg ("✅ Home set to: " ++ loc.name)]))) ∧
    (∀ (st : BotState) (storeOk : Bool) (user : Int) (query : String) (loc : Location),
      query ≠ "" →
      (handleSetWork storeOk st user query (.ok [loc])).1.pendingHome = st.pendingHome ∧
      (handleSetWork storeOk st user query (.ok [loc])).1.pendingWork = st.pendingWork ∧
      (∀ e ∈ (handleSetWork storeOk st user query (.ok [loc])).2, e.isPrompt = false) ∧
      (storeOk = true →
        handleSetWork storeOk st user query (.ok [loc]) =
          (setWorkPref st user loc.id,
           [.writeWork user loc.id, .msg ("✅ Work set to: " ++ loc.name)]))) := by
  constructor
  · intro st storeOk user query loc hq
    have hred : handleSetHome storeOk st user query (.ok [loc]) =
        if storeOk then
          (setHomePref st user loc.id,
           [.writeHome user loc.id, .msg ("✅ Home set to: " ++ loc.name)])
        else
          (st, [.writeHome user loc.id, .msg "❌ Error saving preference. Try again later."]) := by
      simp [handleSetHome, hq]
    rw [hred]
    cases storeOk with
    | true =>
      refine ⟨by simp [setHomePref, putPrefs], by simp [setHomePref, putPrefs], ?_, fun _ => rfl⟩
      intro e he
      simp only [if_true] at he
      rcases List.mem_cons.1 he with h | h
      · subst h; rfl
      · simp only [List.mem_singleton] at h; subst h; rfl
    | false =>
      refine ⟨by simp, by simp, ?_, by intro h; exact absurd h (by simp)⟩
      intro e he
      rcases List.mem_cons.1 he with h | h
      · subst h; rfl
      · simp only [List.mem_singleton] at h; subst h; rfl
  · intro st storeOk user query loc hq
    have hred : handleSetWork storeOk st user query (.ok [loc]) =
        if storeOk then
          (setWorkPref st user loc.id,
           [.writeWork user loc.id, .msg ("✅ Work set to: " ++ loc.name)])
        else
          (st, [.writeWork user loc.id, .msg "❌ Error saving preference. Try again later."]) := by
      simp [handleSetWork, hq]
    rw [hred]
    cases storeOk with
    | true =>
      refine ⟨by simp [setWorkPref, putPrefs], by simp [setWorkPref, putPrefs], ?_, fun _ => rfl⟩
      intro e he
      simp only [if_true] at he
      rcases List.mem_cons.1 he with h | h
      · subst h; rfl
      · simp only [List.mem_singleton] at h; subst h; rfl
    | false =>
      refine ⟨by simp, by simp, ?_, by intro h; exact absurd h (by simp)⟩
      intro e he
      rcases List.mem_cons.1 he with h | h
      · subst h; rfl
      · simp only [List.mem_singleton] at h; subst h; rfl

/-- C5 witness: a single-candidate query persists immediately, sends
the success message, and leaves the (empty) pending maps untouched. -/
theorem single_candidate_resolution_witness :
    handleSetHome true ⟨[], [], []⟩ 9 "odenplan" (.ok [⟨"id9", "Odenplan", "stop"⟩]) =
      (⟨[], [], [(9, ⟨"id9", "", ""⟩)]⟩,
       [.writeHome 9 "id9", .msg "✅ Home set to: Odenplan"]) :=
  (single_candidate_resolution.1 ⟨[], [], []⟩ true 9 "odenplan" ⟨"id9", "Odenplan", "stop"⟩
    (by decide)).2.2.2 rfl

/-- C6 counterexample: planned `08:00:59Z` and estimated `08:01:01Z`
both parse (the difference of 2 s is numerically computable), their
minute-precision renderings differ (`09:00` vs `09:01` local), yet the
truncated whole-minute difference is zero, so the departure line is
the suffix-free fallback — contradicting the claim that the fallback
appears only when the difference cannot be computed numerically. -/
theorem departure_fallback_counterexample :
    (parseRFC3339ToLocal "2024-01-01T08:00:59Z").isSome = true ∧
    (parseRFC3339ToLocal "2024-01-01T08:01:01Z").isSome = true ∧
    formatDepartureCompact "2024-01-01T08:00:59Z" "2024-01-01T08:01:01Z" =
      "  Depart: 09:00 → ⚠️ 09:01\n" := by
  refine ⟨rfl, rfl, ?_⟩
  rfl

/-- C6 (amended): the departure line of `formatDepartureCompact`
coincides, for all pairs of timestamp strings, with the spec's case
analysis once the fallback case also covers a truncated whole-minute
difference of zero: both absent → nothing; exactly one present →
on time with that single rendered time; both present rendering equal →
on time; both parseable with positive truncated minute difference →
late form; negative → early form with the signed value; zero
difference or unparseable → suffix-free fallback. -/
theorem formatDepartureCompact_eq_spec (planned estimated : String) :
    formatDepartureCompact planned estimated = depLineSpec planned estimated := by
  unfold formatDepartureCompact depLineSpec
  simp only [parseAndConvertToLocal_eq_empty]
  by_cases hp : planned = ""
  · by_cases he : estimated = ""
    · simp [hp, he]
    · simp [hp, he]
  · by_cases he : estimated = ""
    · subst he
      simp only [parseAndConvertToLocal]
      simp [hp]
    · by_cases heq : parseAndConvertToLocal planned = parseAndConvertToLocal estimated
      · simp [hp, he, heq]
      · simp [hp, he, heq]

/-- Helper for the fuzzy-match claim: while the accumulator is still
below the cutoff, the loop appends exactly the next
`count - acc.length` matching sites. -/
theorem fuzzyGo_eq_take (q : String) (count : Int) :
    ∀ (l acc : List Site), (acc.length : Int) < count →
      fuzzyGo q count acc l =
        acc ++ (l.filter (fun s => goContains (goToLower s.name) q)).take
          (count - acc.length).toNat := by
  intro l
  induction l with
  | nil => intro acc _; simp [fuzzyGo]
  | cons s rest ih =>
    intro acc hacc
    rw [fuzzyGo]
    by_cases hm : goContains (goToLower s.name) q
    · rw [if_pos hm]
      show (if count ≤ (((acc ++ [s]).length : Nat) : Int) then acc ++ [s]
            else fuzzyGo q count (acc ++ [s]) rest) = _
      have hlen : (((acc ++ [s]).length : Nat) : Int) = (acc.length : Int) + 1 := by
        push_cast [List.length_append, List.length_singleton]
        ring
      by_cases hstop : count ≤ (acc.length : Int) + 1
      · rw [if_pos (by rw [hlen]; exact hstop)]
        have h1 : (count - acc.length).toNat = 1 := by omega
        simp [List.filter_cons, hm, h1]
      · rw [if_neg (by rw [hlen]; exact hstop)]
        rw [ih (acc ++ [s]) (by rw [hlen]; omega)]
        have h1 : (count - acc.length).toNat
            = (count - (((acc ++ [s]).length : Nat) : Int)).toNat + 1 := by
          rw [hlen]; omega
        simp [List.filter_cons, hm, h1, List.take_succ_cons]
    · rw [if_neg hm]
      rw [ih acc hacc]
      simp [List.filter_cons, hm]

/-- Helper for the fuzzy-match claim: with a non-positive requested
count the loop's cutoff fires right after the first match is appended,
so exactly the first matching site is returned. -/
theorem fuzzyGo_nonpos (q : String) (count : Int) (hc : count ≤ 0) :
    ∀ l : List Site,
      fuzzyGo q count [] l =
        (l.filter (fun s => goContains (goToLower s.name) q)).take 1 := by
  intro l
  induction l with
  | nil => simp [fuzzyGo]
  | cons s rest ih =>
    rw [fuzzyGo]
    by_cases hm : goContains (goToLower s.name) q
    · rw [if_pos hm]
      show (if count ≤ ((([] ++ [s] : List Site).length : Nat) : Int) then ([] ++ [s] : List Site)
            else fuzzyGo q count ([] ++ [s]) rest) = _
      rw [if_pos (by simp; omega)]
      simp [List.filter_cons, hm]
    · rw [if_neg hm]
      rw [ih]
      simp [List.filter_cons, hm]

/-- C7 counterexample: with requested count `0` and one matching site,
`FuzzyMatch` returns that site rather than the empty truncation the
claim demands. -/
theorem FuzzyMatch_count_zero_counterexample :
    FuzzyMatch "a" [⟨"abc", 1, "S"⟩] 0 ≠ substrMatches "a" [⟨"abc", 1, "S"⟩] 0 := by
  have h1 : FuzzyMatch "a" [⟨"abc", 1, "S"⟩] 0 = [⟨"abc", 1, "S"⟩] := rfl
  have h2 : substrMatches "a" [⟨"abc", 1, "S"⟩] 0 = [] := rfl
  rw [h1, h2]
  exact List.cons_ne_nil _ _

/-- C7 (amended): for every query, site list and requested count, the
legacy substring matcher returns the lower-cased-substring matches in
source order truncated to the requested count when that count is
positive; a count of zero or less behaves as a count of one, because
the loop's cutoff is checked only after a match has been appended. -/
theorem FuzzyMatch_eq_filter_take (query : String) (sites : List Site) (count : Int) :
    FuzzyMatch query sites count = substrMatches query sites (max 1 count) := by
  unfold FuzzyMatch substrMatches
  by_cases h1 : 1 ≤ count
  · have h := fuzzyGo_eq_take (goToLower query) count sites [] (by simp; omega)
    simp only [List.length_nil, Int.natCast_zero, sub_zero, List.nil_append] at h
    rw [h]
    congr 1
    omega
  · rw [fuzzyGo_nonpos (goToLower query) count (by omega) sites]
    congr 1
    omega

/-- C8: duration rendering in the itinerary formatter converts seconds
to whole minutes by ceiling division by sixty; in particular 179 s and
180 s render as 3 min and 181 s as 4 min. -/
theorem durationMin_is_ceiling :
    (∀ s : Int, 0 ≤ s → durationMin s = ⌈(s : ℚ) / 60⌉) ∧
    durationMin 179 = 3 ∧ durationMin 180 = 3 ∧ durationMin 181 = 4 := by
  refine ⟨?_, by decide, by decide, by decide⟩
  intro s hs
  have ht : Int.tdiv (s + 59) 60 = (s + 59) / 60 :=
    Int.tdiv_eq_ediv (by omega) (by omega)
  rw [durationMin, ht, eq_comm, Int.ceil_eq_iff]
  have hmod := Int.emod_add_ediv (s + 59) 60
  have hm0 : 0 ≤ (s + 59) % 60 := Int.emod_nonneg _ (by norm_num)
  have hm1 : (s + 59) % 60 < 60 := Int.emod_lt_of_pos _ (by norm_num)
  constructor
  · rw [lt_div_iff₀ (by norm_num : (0 : ℚ) < 60)]
    have : ((s + 59) / 60 - 1) * 60 < s := by nlinarith
    exact_mod_cast this
  · rw [div_le_iff₀ (by norm_num : (0 : ℚ) < 60)]
    have : s ≤ ((s + 59) / 60) * 60 := by nlinarith
    exact_mod_cast this

/-- C8 witness: the general ceiling statement applied at 179 seconds. -/
theorem durationMin_is_ceiling_witness :
    (0 : Int) ≤ 179 ∧ durationMin 179 = ⌈((179 : Int) : ℚ) / 60⌉ :=
  ⟨by norm_num, durationMin_is_ceiling.1 179 (by norm_num)⟩

/-- Helper for the count-clamping claim: the two sequential clampings
of `FormatJourneys` compose to a minimum. -/
theorem FormatJourneys_renderOptions (o d : String) (js : List Journey) (c : Int) :
    FormatJourneys o d js c =
      renderOptions js (min (if c ≤ 0 then 3 else c.toNat) js.length) := by
  simp only [FormatJourneys, renderOptions]
  have e1 : (if (js.length : Int) < (if c ≤ 0 then 3 else c) then (js.length : Int)
      else (if c ≤ 0 then 3 else c))
      = ((min (if c ≤ 0 then 3 else c.toNat) js.length : Nat) : Int) := by
    split_ifs <;> push_cast <;> omega
  rw [e1]
  simp only [Int.toNat_natCast, Int.natCast_eq_zero]

/-- C9: the itinerary formatter renders exactly
`min (effective requested count) (available journeys)` options, where a
requested count of zero or less is replaced by the default 3, and an
empty journey list renders exactly the sentinel text. -/
theorem FormatJourneys_count_clamping :
    (∀ originLabel destinationLabel journeys (count : Int),
      FormatJourneys originLabel destinationLabel journeys count =
        renderOptions journeys
          (min (if count ≤ 0 then 3 else count.toNat) journeys.length)) ∧
    (∀ originLabel destinationLabel (count : Int),
      FormatJourneys originLabel destinationLabel [] count = "No journeys found.") := by
  refine ⟨FormatJourneys_renderOptions, ?_⟩
  intro o d c
  rw [FormatJourneys_renderOptions]
  simp [renderOptions]

/-- C10: the itinerary formatter's output is independent of the
origin-label and destination-label arguments. -/
theorem FormatJourneys_label_independent
    (o1 d1 o2 d2 : String) (journeys : List Journey) (count : Int) :
    FormatJourneys o1 d1 journeys count = FormatJourneys o2 d2 journeys count := rfl

end Slbot
